import Mathlib

/-!
Verification development for the ynab_mcp server.

The definitions below are a shallow embedding of the TypeScript sources:
`src/utils.ts` (currency and date normalisation), the `YNABClient` class
(name resolution, payee cache, transaction listing with the expanding
window strategy, remote calls), and the tool handlers in
`src/tools/transactions.ts` and `src/tools/accounts.ts`.

Modelling conventions:
* JavaScript numbers are modelled as rationals (ℚ); integer milliunit
  amounts as ℤ.
* `Math.round` is modelled as round-to-nearest with ties toward +∞,
  which is the ECMAScript semantics of `Math.round`.
* Strings are Lean `String`s; JS `toLowerCase`, `includes`, `startsWith`
  and code-unit comparison are modelled by executable functions on the
  underlying character lists.
* The process clock is a parameter `nowDay : ℤ` counting calendar days
  since 1970-01-01; `new Date().toISOString().split("T")[0]` is modelled
  by `isoOfDay nowDay`.  General date parsing by the host (`new Date(s)`)
  is an external collaborator and is passed in as a parameter
  `jsParse : String → Option ℤ` returning the parsed day, `none` when
  the host would produce an invalid date.
* Remote HTTP traffic is made explicit: every handler returns, next to
  its result, the ordered list of remote calls it issued (`RemoteCall`).
  Responses of read endpoints are drawn from an `Env` record holding the
  remote entity state.
* Success confirmation texts that merely render the remote response
  (via locale-dependent `Intl.NumberFormat`) are not modelled in detail;
  error texts, which the verified properties talk about, are modelled
  verbatim.  Entity record fields never read by the modelled operations
  (goal sub-records of categories, display names inside transactions)
  are omitted.
-/

namespace YnabMcp

/-- Lower-case a string character-wise; models JavaScript
`String.prototype.toLowerCase` for the ASCII names this program handles. -/
def lowerStr (s : String) : String := String.mk (s.data.map Char.toLower)

/-- `startsWithB s pat` is true when `pat` is a prefix of `s`; models
JavaScript `String.prototype.startsWith`. -/
def startsWithB : List Char → List Char → Bool
  | _, [] => true
  | [], _ :: _ => false
  | c :: cs, p :: ps => c == p && startsWithB cs ps

/-- `containsB s pat` is true when `pat` occurs as a contiguous substring
of `s`; models JavaScript `String.prototype.includes`. -/
def containsB : List Char → List Char → Bool
  | [], pat => startsWithB [] pat
  | c :: cs, pat => startsWithB (c :: cs) pat || containsB cs pat

/-- Strict code-unit lexicographic comparison of character lists; models
the ordering JavaScript string comparison (`localeCompare` on the ASCII
ISO dates used here) induces. -/
def strLtB : List Char → List Char → Bool
  | [], [] => false
  | [], _ :: _ => true
  | _ :: _, [] => false
  | a :: as, b :: bs => Nat.blt a.toNat b.toNat || (Nat.beq a.toNat b.toNat && strLtB as bs)

/-- `strLeB a b` : `a` is at or before `b` in code-unit order. -/
def strLeB (a b : String) : Bool := !(strLtB b.data a.data)

/-- Join a list of names with a comma separator, as produced by
`array.map(...).join(", ")` in the sources. -/
def joinNames (names : List String) : String := String.intercalate ", " names

/-- Model of JavaScript `Math.round`: round to nearest integer, ties
toward positive infinity. -/
def jsRound (x : ℚ) : ℤ := ⌊x + 1/2⌋

/-- `usdToMilliunits` from `src/utils.ts`: `Math.round(usd * 1000)`. -/
def usdToMilliunits (usd : ℚ) : ℤ := jsRound (usd * 1000)

/-- `milliunitsToUSD` from `src/utils.ts`: `milliunits / 1000`. -/
def milliunitsToUSD (m : ℤ) : ℚ := (m : ℚ) / 1000

/-- Modelled from the spec: rounding to the nearest integer with ties
away from zero, the rounding rule §4.1 and C5 ascribe to `toMinorUnits`.
Used only to compare against the behaviour of `usdToMilliunits`. -/
def roundHalfAwayFromZero (x : ℚ) : ℤ := if 0 ≤ x then ⌊x + 1/2⌋ else ⌈x - 1/2⌉

/-- Convert a count of days since 1970-01-01 into a `(year, month, day)`
triple of the proleptic Gregorian calendar; this is the calendar
arithmetic the JavaScript `Date` object performs when rendering
`toISOString()`. -/
def civilFromDays (z0 : ℤ) : ℤ × ℤ × ℤ :=
  let z := z0 + 719468
  let era : ℤ := (if 0 ≤ z then z else z - 146096) / 146097
  let doe : ℤ := z - era * 146097
  let yoe : ℤ := (doe - doe / 1460 + doe / 36524 - doe / 146096) / 365
  let y : ℤ := yoe + era * 400
  let doy : ℤ := doe - (365 * yoe + yoe / 4 - yoe / 100)
  let mp : ℤ := (5 * doy + 2) / 153
  let d : ℤ := doy - (153 * mp + 2) / 5 + 1
  let m : ℤ := if mp < 10 then mp + 3 else mp - 9
  (if m ≤ 2 then y + 1 else y, m, d)

/-- Zero-pad a month or day number to two digits. -/
def pad2 (n : ℤ) : String := if n < 10 then "0" ++ toString n else toString n

/-- Render a day count as the `YYYY-MM-DD` string produced by
`new Date(...).toISOString().split("T")[0]`. -/
def isoOfDay (z : ℤ) : String :=
  let c := civilFromDays z
  toString c.1 ++ "-" ++ pad2 c.2.1 ++ "-" ++ pad2 c.2.2

/-- The error text thrown by `parseDate` in `src/utils.ts` for an
unparseable input. -/
def parseDateErr (input : String) : String :=
  "Could not parse date: \"" ++ input ++ "\". Try formats like \"today\", \"yesterday\", \"2024-01-15\""

/-- `parseDate` from `src/utils.ts`.  `nowDay` is the calendar day of the
process clock and `jsParse` the host date parser (`new Date(input)`),
returning `none` where the host yields `NaN`.  A `.error` value models a
thrown exception. -/
def parseDate (nowDay : ℤ) (jsParse : String → Option ℤ) (input : String) :
    Except String String :=
  let lower := lowerStr input
  if lower == "today" then .ok (isoOfDay nowDay)
  else if lower == "yesterday" then .ok (isoOfDay (nowDay - 1))
  else if lower == "tomorrow" then .ok (isoOfDay (nowDay + 1))
  else
    match jsParse input with
    | some d => .ok (isoOfDay d)
    | none => .error (parseDateErr input)

/-- Model of JavaScript `Number.prototype.toFixed(2)` for the amounts the
handlers format into validation messages. -/
def fixed2 (q : ℚ) : String :=
  let m := jsRound (q * 100)
  let n := m.natAbs
  (if m < 0 then "-" else "") ++ toString (n / 100) ++ "." ++
    (if n % 100 < 10 then "0" ++ toString (n % 100) else toString (n % 100))

/-- `YNABAccount` from `src/types.ts`. -/
structure Account where
  id : String
  name : String
  type : String
  on_budget : Bool
  closed : Bool
  balance : ℤ
  cleared_balance : ℤ
  uncleared_balance : ℤ
  deriving DecidableEq

/-- `YNABCategory` from `src/types.ts`; the goal sub-record fields, which
no modelled operation reads, are omitted. -/
structure Category where
  id : String
  category_group_id : String
  category_group_name : Option String
  name : String
  hidden : Bool
  budgeted : ℤ
  activity : ℤ
  balance : ℤ
  deriving DecidableEq

/-- `YNABCategoryGroup` from `src/types.ts`. -/
structure CategoryGroup where
  id : String
  name : String
  hidden : Bool
  categories : List Category
  deriving DecidableEq

/-- `YNABPayee` from `src/types.ts`. -/
structure Payee where
  id : String
  name : String
  transfer_account_id : Option String
  deriving DecidableEq

/-- `YNABTransaction` from `src/types.ts`, restricted to the fields the
modelled operations read (`id`, `date`, `amount`, `cleared`). -/
structure Transaction where
  id : String
  date : String
  amount : ℤ
  cleared : String
  deriving DecidableEq

/-- A subtransaction descriptor as submitted to the remote create
endpoint by `client.createTransaction`. -/
structure NewSub where
  amount : ℤ
  payee_id : Option String
  payee_name : Option String
  category_id : Option String
  memo : Option String
  deriving DecidableEq

/-- The transaction payload of `client.createTransaction` in
`src/client.ts`. -/
structure NewTransaction where
  account_id : String
  date : String
  amount : ℤ
  payee_name : Option String
  payee_id : Option String
  category_id : Option String
  memo : Option String
  cleared : Option String
  subtransactions : Option (List NewSub)
  deriving DecidableEq

/-- The partial-update payload of `client.updateTransaction` in
`src/client.ts`. -/
structure TxUpdates where
  amount : Option ℤ
  date : Option String
  payee_name : Option String
  payee_id : Option String
  category_id : Option String
  memo : Option String
  cleared : Option String
  deriving DecidableEq

/-- One remote HTTP request issued by the client layer. -/
inductive RemoteCall where
  | fetchAccounts
  | fetchCategories
  | fetchPayees
  | fetchTransactions (since : Option String)
  | updateTx (id : String) (updates : TxUpdates)
  | createTx (tx : NewTransaction)
  deriving DecidableEq

/-- The `{ content, isError }` shape a tool handler returns; success
results leave `isError` unset, modelled as `false`. -/
structure ToolResult where
  text : String
  isError : Bool
  deriving DecidableEq

/-- Remote entity state backing the read endpoints during one modelled
tool invocation. -/
structure Env where
  accounts : List Account
  categoryGroups : List CategoryGroup
  payees : List Payee
  transactions : List Transaction

/-- `getAccountsFresh` response body: the remote account list with closed
accounts filtered out (`src/client.ts`). -/
def visibleAccounts (env : Env) : List Account :=
  env.accounts.filter (fun a => !a.closed)

/-- `getCategoriesFresh` response body: hidden groups and hidden
categories removed, each category annotated with its group name
(`src/client.ts`). -/
def visibleCategories (env : Env) : List Category :=
  (env.categoryGroups.filter (fun g => !g.hidden)).flatMap (fun g =>
    (g.categories.filter (fun c => !c.hidden)).map (fun c =>
      { c with category_group_name := some g.name }))

/-- Result of `findAccount` / `findCategory`: either the resolved entity
or the `{ matches, error }` object. -/
inductive Resolved (α : Type) where
  | entity (a : α)
  | errorRes (matchList : List α) (error : String)
  deriving DecidableEq

/-- Result of `findPayee`: either the resolved payee or the
`{ matches, isNew, error? }` object. -/
inductive PayeeFind where
  | payee (p : Payee)
  | info (matchList : List Payee) (isNew : Bool) (error : Option String)
  deriving DecidableEq

/-- Disambiguation message of `findAccount`. -/
def multiAccountMsg (query : String) (ms : List Account) : String :=
  "Multiple accounts match \"" ++ query ++ "\": " ++ joinNames (ms.map (fun a => a.name))

/-- Not-found message of `findAccount`, echoing all known account names. -/
def noAccountMsg (query : String) (accounts : List Account) : String :=
  "No account found matching \"" ++ query ++ "\". Available: " ++
    joinNames (accounts.map (fun a => a.name))

/-- Disambiguation message of `findCategory`; a missing group name prints
as the JavaScript string `"undefined"`. -/
def multiCategoryMsg (query : String) (ms : List Category) : String :=
  "Multiple categories match \"" ++ query ++ "\": " ++
    joinNames (ms.map (fun c =>
      (match c.category_group_name with
       | some g => g
       | none => "undefined") ++ ": " ++ c.name))

/-- Not-found message of `findCategory`, echoing up to ten known names. -/
def noCategoryMsg (query : String) (categories : List Category) : String :=
  "No category found matching \"" ++ query ++ "\". Try one of: " ++
    joinNames ((categories.take 10).map (fun c => c.name)) ++ "..."

/-- Disambiguation message of `findPayee`, listing at most five names and
counting the rest. -/
def multiPayeeMsg (query : String) (ms : List Payee) : String :=
  "Multiple payees match \"" ++ query ++ "\": " ++
    joinNames ((ms.take 5).map (fun p => p.name)) ++
    (if 5 < ms.length then " (and " ++ toString (ms.length - 5) ++ " more)" else "")

/-- `YNABClient.findAccount` (`src/client.ts`), applied to the list
`getAccountsFresh` returned: exact lower-cased match first, then the
contains filter, branching on zero, one, or many hits. -/
def findAccount (accounts : List Account) (query : String) : Resolved Account :=
  let q := lowerStr query
  match accounts.find? (fun a => lowerStr a.name == q) with
  | some a => .entity a
  | none =>
    match accounts.filter (fun a => containsB (lowerStr a.name).data q.data) with
    | [a] => .entity a
    | [] => .errorRes [] (noAccountMsg query accounts)
    | ms => .errorRes ms (multiAccountMsg query ms)

/-- `YNABClient.findCategory` (`src/client.ts`), applied to the list
`getCategoriesFresh` returned. -/
def findCategory (categories : List Category) (query : String) : Resolved Category :=
  let q := lowerStr query
  match categories.find? (fun c => lowerStr c.name == q) with
  | some c => .entity c
  | none =>
    match categories.filter (fun c => containsB (lowerStr c.name).data q.data) with
    | [c] => .entity c
    | [] => .errorRes [] (noCategoryMsg query categories)
    | ms => .errorRes ms (multiCategoryMsg query ms)

/-- The payee substring-match set of `YNABClient.findPayee`: candidates
whose lower-cased name contains, or starts with, the lower-cased query. -/
def payeeMatchSet (payees : List Payee) (query : String) : List Payee :=
  let q := lowerStr query
  payees.filter (fun p =>
    containsB (lowerStr p.name).data q.data || startsWithB (lowerStr p.name).data q.data)

/-- `YNABClient.findPayee` (`src/client.ts`): exact match, then the
contains-or-starts-with filter; more than one hit yields the
disambiguation object truncated to five candidates, no hit yields the
`{ matches: [], isNew: true }` new-payee signal. -/
def findPayee (payees : List Payee) (query : String) : PayeeFind :=
  let q := lowerStr query
  match payees.find? (fun p => lowerStr p.name == q) with
  | some p => .payee p
  | none =>
    match payeeMatchSet payees query with
    | [p] => .payee p
    | [] => .info [] true none
    | ms => .info (ms.take 5) false (some (multiPayeeMsg query ms))

/-- Modelled from the spec: the simplified payee matcher §9 proposes,
using the contains check alone, to be compared with `findPayee`. -/
def findPayeeContainsOnly (payees : List Payee) (query : String) : PayeeFind :=
  let q := lowerStr query
  match payees.find? (fun p => lowerStr p.name == q) with
  | some p => .payee p
  | none =>
    match payees.filter (fun p => containsB (lowerStr p.name).data q.data) with
    | [p] => .payee p
    | [] => .info [] true none
    | ms => .info (ms.take 5) false (some (multiPayeeMsg query ms))

/-- Stable insertion used to model the JavaScript stable
`Array.prototype.sort` with comparator
`(a, b) => b.date.localeCompare(a.date)`: descending by date, ties kept
in encounter order. -/
def insertDesc (x : Transaction) : List Transaction → List Transaction
  | [] => [x]
  | y :: ys => if strLeB y.date x.date then x :: y :: ys else y :: insertDesc x ys

/-- Sort a transaction list descending by date (stable), as the client
does before returning any transaction listing. -/
def sortByDateDesc : List Transaction → List Transaction
  | [] => []
  | x :: xs => insertDesc x (sortByDateDesc xs)

/-- Remote transactions endpoint: the YNAB API returns the transactions
dated on or after the requested `since_date` (all of them when no filter
is given).  Modelled as a filter over the environment state. -/
def serverTransactions (env : Env) (since : Option String) : List Transaction :=
  match since with
  | none => env.transactions
  | some d => env.transactions.filter (fun t => strLeB d t.date)

/-- The expanding-window loop of `YNABClient.getTransactions`
(`src/client.ts`): for each lookback window, fetch the transactions since
`nowDay - days`; stop at the first response whose count reaches `limit`,
returning it sorted descending. -/
def windowLoop (env : Env) (nowDay : ℤ) (limit : ℕ) :
    List ℤ → Option (List Transaction) × List RemoteCall
  | [] => (none, [])
  | days :: rest =>
    let since := isoOfDay (nowDay - days)
    let resp := serverTransactions env (some since)
    if limit ≤ resp.length then
      (some (sortByDateDesc resp), [RemoteCall.fetchTransactions (some since)])
    else
      let r := windowLoop env nowDay limit rest
      (r.1, RemoteCall.fetchTransactions (some since) :: r.2)

/-- `YNABClient.getTransactions` (`src/client.ts`).  With no since-date it
tries the 30/90/180/365-day windows and falls back to an unbounded fetch;
with a since-date it issues one filtered fetch.  Every response is sorted
descending by date before being returned. -/
def clientGetTransactions (env : Env) (nowDay : ℤ) (sinceDate : Option String)
    (limit : ℕ) : List Transaction × List RemoteCall :=
  match sinceDate with
  | some d =>
    (sortByDateDesc (serverTransactions env (some d)),
     [RemoteCall.fetchTransactions (some d)])
  | none =>
    match windowLoop env nowDay limit [30, 90, 180, 365] with
    | (some res, tr) => (res, tr)
    | (none, tr) =>
      (sortByDateDesc (serverTransactions env none),
       tr ++ [RemoteCall.fetchTransactions none])

/-- The final result set of the `get_transactions` handler with no
since-date and no entity filters: the client listing truncated to the
limit (`src/tools/transactions.ts`, `transactions.slice(0, limit)`). -/
def getTransactionsLimited (env : Env) (nowDay : ℤ) (limit : ℕ) : List Transaction :=
  ((clientGetTransactions env nowDay none limit).1).take limit

/-- JavaScript truthiness on an optional string argument: an absent or
empty string both fail an `if (arg)` test. -/
def optStr (o : Option String) : Option String :=
  match o with
  | some s => if s == "" then none else some s
  | none => none

/-- `client.createTransaction` (`src/client.ts`): one POST, followed by a
payee-cache refresh fetch when the payload names a payee without an id. -/
def clientCreateTransaction (tx : NewTransaction) : List RemoteCall :=
  RemoteCall.createTx tx ::
    (if tx.payee_name.isSome && tx.payee_id.isNone then [RemoteCall.fetchPayees] else [])

/-- Rejection text of the `create_transaction` handler when the payee is
new and `confirm_new_payee` was not set. -/
def newPayeeMsg (payee : String) : String :=
  "\"" ++ payee ++ "\" is a new payee that doesn\x27t exist in your budget yet. To create this transaction with a new payee, set confirm_new_payee to true."

/-- Disambiguation text of the `create_transaction` handler for an
ambiguous parent payee. -/
def toolMultiPayeeMsg (payee : String) (ms : List Payee) : String :=
  "Multiple payees match \"" ++ payee ++ "\":\n" ++
    String.intercalate "\n" (ms.map (fun p => "  - " ++ p.name)) ++
    "\n\nPlease specify which payee you mean, or use the exact name."

/-- Validation text of the `create_transaction` handler for a
subtransaction sum mismatch. -/
def subMismatchMsg (amount subTotal : ℚ) : String :=
  "Subtransaction amounts must sum to the parent amount. Parent: $" ++
    fixed2 amount ++ ", subtransactions sum: $" ++ fixed2 subTotal

/-- Error text of the `create_transaction` handler for an ambiguous
subtransaction payee. -/
def subPayeeMultiMsg (payee : String) (ms : List Payee) : String :=
  "Subtransaction payee error: Multiple payees match \"" ++ payee ++ "\": " ++
    joinNames (ms.map (fun p => p.name))

/-- A subtransaction descriptor as accepted by the `create_transaction`
tool (amounts in major units). -/
structure SubArg where
  amount : ℚ
  category : Option String
  payee : Option String
  memo : Option String
  deriving DecidableEq

/-- The argument record of the `create_transaction` tool.  An omitted
`confirm_new_payee` is falsy in JavaScript and is modelled as `false`. -/
structure CreateArgs where
  amount : ℚ
  payee : String
  category : Option String
  account : Option String
  date : Option String
  memo : Option String
  confirm_new_payee : Bool
  subtransactions : Option (List SubArg)
  deriving DecidableEq

/-- Account resolution step of `create_transaction`: resolve the named
account, or default to the first fresh account.  Both branches fetch the
account list, so the step's remote trace is the single
`fetchAccounts` call recorded by the handler. -/
def resolveAccountStep (env : Env) (account : Option String) : Except ToolResult String :=
  match optStr account with
  | some q =>
    match findAccount (visibleAccounts env) q with
    | .entity a => .ok a.id
    | .errorRes _ e => .error { text := e, isError := true }
  | none =>
    match visibleAccounts env with
    | [] => .error { text := "No accounts found in your budget", isError := true }
    | a :: _ => .ok a.id

/-- Payee resolution step of `create_transaction`: produces the
`(payee_id?, payee_name?)` pair the handler submits.  A multi-match
aborts; a new payee aborts unless confirmed, and is then passed on by
name; the unreachable no-match-not-new shape falls through with neither
field set, as in the source. -/
def resolvePayeeStep (payees : List Payee) (q : String) (confirm : Bool) :
    Except ToolResult (Option String × Option String) :=
  match findPayee payees q with
  | .payee p => .ok (some p.id, none)
  | .info ms isNew _ =>
    if 0 < ms.length then
      .error { text := toolMultiPayeeMsg q ms, isError := true }
    else if isNew then
      if !confirm then .error { text := newPayeeMsg q, isError := true }
      else .ok (none, some q)
    else .ok (none, none)

/-- Category resolution step of `create_transaction` (also used for the
parent category): a named category costs one categories fetch. -/
def resolveCategoryStep (env : Env) (category : Option String) :
    Except ToolResult (Option String) × List RemoteCall :=
  match optStr category with
  | none => (.ok none, [])
  | some q =>
    match findCategory (visibleCategories env) q with
    | .entity c => (.ok (some c.id), [RemoteCall.fetchCategories])
    | .errorRes _ e => (.error { text := e, isError := true }, [RemoteCall.fetchCategories])

/-- Date step of `create_transaction`: parse the given date or default to
today; a parse failure is a thrown exception. -/
def dateStep (nowDay : ℤ) (jsParse : String → Option ℤ) (date : Option String) :
    Except String String :=
  match optStr date with
  | some d => parseDate nowDay jsParse d
  | none => .ok (isoOfDay nowDay)

/-- Category resolution for one subtransaction descriptor of
`create_transaction`: like the parent category step but with the
`Subtransaction category error:` prefix on failure. -/
def subCatStep (env : Env) (category : Option String) :
    Except ToolResult (Option String) × List RemoteCall :=
  match optStr category with
  | none => (.ok none, [])
  | some q =>
    match findCategory (visibleCategories env) q with
    | .entity c => (.ok (some c.id), [RemoteCall.fetchCategories])
    | .errorRes _ e =>
      (.error { text := "Subtransaction category error: " ++ e, isError := true },
       [RemoteCall.fetchCategories])

/-- Payee resolution for one subtransaction descriptor of
`create_transaction`: a multi-match aborts, any other non-match passes
the name through for implicit creation (no confirmation gate here, as in
the source). -/
def subPayStep (payees : List Payee) (payee : Option String) :
    Except ToolResult (Option String × Option String) :=
  match optStr payee with
  | none => .ok (none, none)
  | some q =>
    match findPayee payees q with
    | .payee p => .ok (some p.id, none)
    | .info ms _ _ =>
      if 0 < ms.length then .error { text := subPayeeMultiMsg q ms, isError := true }
      else .ok (none, some q)

/-- The per-subtransaction resolution loop of `create_transaction`:
resolve each descriptor's category and payee in order, converting the
amount to milliunits; the first resolution failure aborts the whole
operation. -/
def resolveSubList (env : Env) : List SubArg → Except ToolResult (List NewSub) × List RemoteCall
  | [] => (.ok [], [])
  | s :: rest =>
    match subCatStep env s.category with
    | (.error r, tr) => (.error r, tr)
    | (.ok catId, tr) =>
      match subPayStep env.payees s.payee with
      | .error r => (.error r, tr)
      | .ok (pid, pname) =>
        let resolved : NewSub :=
          { amount := usdToMilliunits s.amount, payee_id := pid, payee_name := pname,
            category_id := catId, memo := optStr s.memo }
        match resolveSubList env rest with
        | (.error r, tr2) => (.error r, tr ++ tr2)
        | (.ok rs, tr2) => (.ok (resolved :: rs), tr ++ tr2)

/-- Subtransaction step of `create_transaction`: with a non-empty list,
validate that the amounts sum to the parent amount within the 0.005
(major unit) tolerance, then resolve each descriptor; an absent or empty
list passes through. -/
def subsStep (env : Env) (amount : ℚ) (subs : Option (List SubArg)) :
    Except ToolResult (Option (List NewSub)) × List RemoteCall :=
  match subs with
  | none => (.ok none, [])
  | some [] => (.ok none, [])
  | some (s :: ss) =>
    let subTotal := (s :: ss).foldl (fun acc x => acc + x.amount) 0
    if (1/200 : ℚ) < |subTotal - amount| then
      (.error { text := subMismatchMsg amount subTotal, isError := true }, [])
    else
      match resolveSubList env (s :: ss) with
      | (.error r, tr) => (.error r, tr)
      | (.ok rs, tr) => (.ok (some rs), tr)

/-- The `create_transaction` tool handler (`src/tools/transactions.ts`):
resolve account, payee, category and date, validate and resolve
subtransactions, then POST the transaction with `cleared: "uncleared"`.
Returns the handler result (`.error` models a thrown exception) together
with the ordered remote-call trace. -/
def createTransactionTool (env : Env) (nowDay : ℤ) (jsParse : String → Option ℤ)
    (args : CreateArgs) : Except String ToolResult × List RemoteCall :=
  match resolveAccountStep env args.account with
  | .error r => (.ok r, [RemoteCall.fetchAccounts])
  | .ok accountId =>
    match resolvePayeeStep env.payees args.payee args.confirm_new_payee with
    | .error r => (.ok r, [RemoteCall.fetchAccounts])
    | .ok (payeeId, payeeName) =>
      match resolveCategoryStep env args.category with
      | (.error r, tr2) => (.ok r, RemoteCall.fetchAccounts :: tr2)
      | (.ok catId, tr2) =>
        match dateStep nowDay jsParse args.date with
        | .error e => (.error e, RemoteCall.fetchAccounts :: tr2)
        | .ok txDate =>
          match subsStep env args.amount args.subtransactions with
          | (.error r, tr3) => (.ok r, RemoteCall.fetchAccounts :: (tr2 ++ tr3))
          | (.ok subsRes, tr3) =>
            let catFinal : Option String :=
              match subsRes with
              | some _ => none
              | none => catId
            let tx : NewTransaction :=
              { account_id := accountId, date := txDate,
                amount := usdToMilliunits args.amount, payee_id := payeeId,
                payee_name := payeeName, category_id := catFinal, memo := args.memo,
                cleared := some "uncleared", subtransactions := subsRes }
            (.ok { text := "Transaction created successfully", isError := false },
             RemoteCall.fetchAccounts :: (tr2 ++ tr3 ++ clientCreateTransaction tx))

/-- The update payload `{ cleared: "reconciled" }` issued per cleared
transaction by `reconcile_account`. -/
def reconcileUpd : TxUpdates :=
  { amount := none, date := none, payee_name := none, payee_id := none,
    category_id := none, memo := none, cleared := some "reconciled" }

/-- The `reconcile_account` tool handler (`src/tools/accounts.ts`):
resolve the account, fetch its history since 1900-01-01, mark each
currently-cleared transaction reconciled with one sequential update call
each, then create a reconciled balance-adjustment transaction when a
target balance is supplied whose milliunit conversion differs from the
account's cleared balance. -/
def reconcileAccountTool (env : Env) (nowDay : ℤ) (account : String)
    (balance : Option ℚ) : Except String ToolResult × List RemoteCall :=
  match findAccount (visibleAccounts env) account with
  | .errorRes _ e =>
    (.ok { text := e, isError := true }, [RemoteCall.fetchAccounts])
  | .entity a =>
    let fetched := clientGetTransactions env nowDay (some "1900-01-01") 20
    let clearedTxs := fetched.1.filter (fun t => t.cleared == "cleared")
    let updCallsTrace := clearedTxs.map (fun t => RemoteCall.updateTx t.id reconcileUpd)
    let adjTrace : List RemoteCall :=
      match balance with
      | none => []
      | some b =>
        let target := usdToMilliunits b
        if target ≠ a.cleared_balance then
          clientCreateTransaction
            { account_id := a.id, date := isoOfDay nowDay,
              amount := target - a.cleared_balance,
              payee_name := some "Reconciliation Balance Adjustment",
              payee_id := none, category_id := none, memo := none,
              cleared := some "reconciled", subtransactions := none }
        else []
    (.ok { text := "Reconciled account: " ++ a.name, isError := false },
     RemoteCall.fetchAccounts :: (fetched.2 ++ updCallsTrace ++ adjTrace))

/-- The create requests contained in a remote-call trace. -/
def createCalls (tr : List RemoteCall) : List NewTransaction :=
  tr.filterMap (fun c =>
    match c with
    | RemoteCall.createTx t => some t
    | _ => none)

/-- The update requests contained in a remote-call trace. -/
def updateCalls (tr : List RemoteCall) : List (String × TxUpdates) :=
  tr.filterMap (fun c =>
    match c with
    | RemoteCall.updateTx i u => some (i, u)
    | _ => none)

/-- A handler outcome that did not succeed: either a thrown exception or
a result flagged `isError`. -/
def isFailure (r : Except String ToolResult) : Bool :=
  match r with
  | .error _ => true
  | .ok t => t.isError

/-- Descending-by-date order between listed transactions: the later list
entry is dated at or before the earlier one. -/
def dateGe (a b : Transaction) : Prop := strLeB b.date a.date = true

/-- A host date parser that parses nothing, used to instantiate clock
parameters in concrete scenarios. -/
def jsNone : String → Option ℤ := fun _ => none

/-- Example payees for the exact-match scenario: an exact candidate next
to one that would also match by substring. -/
def c1Payees : List Payee :=
  [{ id := "p1", name := "Amazon.com", transfer_account_id := none },
   { id := "p2", name := "Amazon.com Gift Cards", transfer_account_id := none }]

/-- Example account with the exact name queried in the exact-match
scenario. -/
def c1Account : Account :=
  { id := "a1", name := "Amazon.com", type := "checking", on_budget := true,
    closed := false, balance := 0, cleared_balance := 0, uncleared_balance := 0 }

/-- Example payee list for the multi-substring-match scenario. -/
def c2Payees : List Payee :=
  [{ id := "p1", name := "Amazon.com", transfer_account_id := none },
   { id := "p2", name := "Amazon Prime", transfer_account_id := none },
   { id := "p3", name := "AmazonFresh", transfer_account_id := none }]

/-- A generic open checking account used by the handler scenarios. -/
def exAccount : Account :=
  { id := "acc1", name := "Checking", type := "checking", on_budget := true,
    closed := false, balance := 150000, cleared_balance := 150000,
    uncleared_balance := 0 }

/-- Environment for the new-payee confirmation scenario: one account, one
known payee that does not match the queried name. -/
def c3Env : Env :=
  { accounts := [exAccount], categoryGroups := [],
    payees := [{ id := "p1", name := "Amazon.com", transfer_account_id := none }],
    transactions := [] }

/-- Arguments of the new-payee creation call, without the confirmation
flag. -/
def c3Args : CreateArgs :=
  { amount := -42, payee := "NewShop", category := none, account := none,
    date := none, memo := none, confirm_new_payee := false, subtransactions := none }

/-- Environment for the subtransaction-mismatch scenario. -/
def c4Env : Env :=
  { accounts := [exAccount], categoryGroups := [],
    payees := [{ id := "p1", name := "Amazon.com", transfer_account_id := none }],
    transactions := [] }

/-- First split line of the mismatch scenario: -60.00. -/
def c4Sub1 : SubArg := { amount := -60, category := none, payee := none, memo := none }

/-- Second split line of the mismatch scenario: -40.00. -/
def c4Sub2 : SubArg := { amount := -40, category := none, payee := none, memo := none }

/-- A split create call whose two subtransactions sum to -100.00 against
a parent amount of -95.00. -/
def c4Args : CreateArgs :=
  { amount := -95, payee := "Amazon.com", category := none,
    account := some "Checking", date := none, memo := none,
    confirm_new_payee := false,
    subtransactions := some [c4Sub1, c4Sub2] }

/-- A dated uncategorised transaction used to populate listing
scenarios. -/
def exTx (n : ℕ) (d : ℤ) (cl : String) : Transaction :=
  { id := "t" ++ toString n, date := isoOfDay d, amount := -1000, cleared := cl }

/-- The clock day used by the concrete listing scenarios
(corresponding to 2024-10-04). -/
def c6Now : ℤ := 20000

/-- Environment for the expanding-window scenario: five transactions in
the last 30 days and twenty more between 40 and 59 days back, so the
30-day window yields 5 and the 90-day window yields 25. -/
def c6Env : Env :=
  { accounts := [], categoryGroups := [], payees := [],
    transactions :=
      (List.range 5).map (fun i => exTx i (c6Now - 1 - i) "cleared") ++
      (List.range 20).map (fun i => exTx (100 + i) (c6Now - 40 - i) "uncleared") }

/-- Environment for the reconcile scenario: the checking account with
cleared balance 150000 and a mixed transaction history. -/
def c7Env : Env :=
  { accounts := [exAccount], categoryGroups := [], payees := [],
    transactions :=
      [exTx 1 19990 "cleared", exTx 2 19991 "uncleared",
       exTx 3 19992 "reconciled", exTx 4 19993 "cleared"] }

/-- Arguments for the confirmed-new-payee creation scenario. -/
def c10Args : CreateArgs :=
  { amount := -42, payee := "NewShop", category := none, account := none,
    date := none, memo := none, confirm_new_payee := true, subtransactions := none }

/-- The transactions `reconcile_account` sees in "cleared" state, in the
order the list call returned them (descending by date). -/
def clearedOf (env : Env) : List Transaction :=
  (sortByDateDesc (serverTransactions env (some "1900-01-01"))).filter
    (fun t => t.cleared == "cleared")

/-- Example category used to instantiate resolution scenarios. -/
def c1Category : Category :=
  { id := "c1", category_group_id := "g1", category_group_name := some "Monthly",
    name := "Groceries", hidden := false, budgeted := 0, activity := 0, balance := 0 }

/-- A second category sharing a substring with `c1Category`. -/
def c2Category2 : Category :=
  { id := "c2", category_group_id := "g1", category_group_name := some "Monthly",
    name := "Gross Income", hidden := false, budgeted := 0, activity := 0, balance := 0 }

/-- A second account sharing a substring with `c1Account`. -/
def c2Account2 : Account :=
  { id := "a2", name := "Amazon Prime Card", type := "creditCard", on_budget := true,
    closed := false, balance := 0, cleared_balance := 0, uncleared_balance := 0 }

theorem find_exists {α} (p : α → Bool) (l : List α) (a : α) (ha : a ∈ l)
    (hp : p a = true) : ∃ b, l.find? p = some b ∧ p b = true := by
  have hs : (l.find? p).isSome := List.find?_isSome.mpr ⟨a, ha, hp⟩
  cases h : l.find? p with
  | none => rw [h] at hs; simp at hs
  | some b => exact ⟨b, rfl, List.find?_some h⟩

/-- C5: the claim ascribes round-half-away-from-zero to `toMinorUnits`,
but the code uses JavaScript `Math.round`, which rounds halves toward
positive infinity: at the tie -0.0005 major units the code yields 0
while half-away-from-zero rounding demands -1. -/
theorem c5_rounding_counterexample :
    usdToMilliunits (-(1 : ℚ)/2000) = 0 ∧
    roundHalfAwayFromZero (-(1 : ℚ)/2000 * 1000) = -1 := by
  constructor
  · norm_num [usdToMilliunits, jsRound]
  · norm_num [roundHalfAwayFromZero]
    simpa using Int.ceil_intCast (α := ℚ) (-1)

/-- C5 (amended): `usdToMilliunits` multiplies by 1000 and rounds to the
nearest integer with ties toward positive infinity (JavaScript
`Math.round`); `usdToMilliunits 45 = 45000`,
`usdToMilliunits (-50) = -50000`, and the round trip through
`milliunitsToUSD` reproduces every amount within half a milliunit. -/
theorem c5_rounding_amended :
    (∀ a : ℚ, |(usdToMilliunits a : ℚ) - a * 1000| ≤ 1/2) ∧
    (∀ n : ℤ, usdToMilliunits ((n : ℚ)/1000 + 1/2000) = n + 1) ∧
    usdToMilliunits 45 = 45000 ∧
    usdToMilliunits (-50) = -50000 ∧
    (∀ a : ℚ, |milliunitsToUSD (usdToMilliunits a) - a| ≤ 1/2000) := by
  have hb : ∀ a : ℚ, |(usdToMilliunits a : ℚ) - a * 1000| ≤ 1/2 := by
    intro a
    have h1 : (↑⌊a * 1000 + 1/2⌋ : ℚ) ≤ a * 1000 + 1/2 := Int.floor_le _
    have h2 : a * 1000 + 1/2 < ↑⌊a * 1000 + 1/2⌋ + 1 := Int.lt_floor_add_one _
    rw [usdToMilliunits, jsRound, abs_le]
    constructor <;> linarith
  refine ⟨hb, ?_, ?_, ?_, ?_⟩
  · intro n
    have h : ((n : ℚ)/1000 + 1/2000) * 1000 + 1/2 = ((n + 1 : ℤ) : ℚ) := by
      push_cast; ring
    rw [usdToMilliunits, jsRound, h, Int.floor_intCast]
  · norm_num [usdToMilliunits, jsRound]
  · norm_num [usdToMilliunits, jsRound]
  · intro a
    have h := hb a
    rw [abs_le] at h ⊢
    rw [milliunitsToUSD]
    constructor <;> [linarith ; linarith]

/-- C9: `parseDate` recognises the case-insensitive tokens today /
yesterday / tomorrow, yielding the clock date and its neighbours in
`YYYY-MM-DD` form; any other input goes to the host date parser, and an
unparseable input such as "not-a-date" fails with the invalid-date
error. -/
theorem c9_parse_date_tokens :
    (∀ (nowDay : ℤ) (jsParse : String → Option ℤ) (s : String),
        lowerStr s = "today" →
        parseDate nowDay jsParse s = .ok (isoOfDay nowDay)) ∧
    (∀ (nowDay : ℤ) (jsParse : String → Option ℤ) (s : String),
        lowerStr s = "yesterday" →
        parseDate nowDay jsParse s = .ok (isoOfDay (nowDay - 1))) ∧
    (∀ (nowDay : ℤ) (jsParse : String → Option ℤ) (s : String),
        lowerStr s = "tomorrow" →
        parseDate nowDay jsParse s = .ok (isoOfDay (nowDay + 1))) ∧
    (∀ (nowDay : ℤ) (jsParse : String → Option ℤ) (s : String) (d : ℤ),
        lowerStr s ≠ "today" → lowerStr s ≠ "yesterday" → lowerStr s ≠ "tomorrow" →
        jsParse s = some d →
        parseDate nowDay jsParse s = .ok (isoOfDay d)) ∧
    (∀ (nowDay : ℤ) (jsParse : String → Option ℤ) (s : String),
        lowerStr s ≠ "today" → lowerStr s ≠ "yesterday" → lowerStr s ≠ "tomorrow" →
        jsParse s = none →
        parseDate nowDay jsParse s = .error (parseDateErr s)) := by
  refine ⟨?_, ?_, ?_, ?_, ?_⟩
  · intro nowDay jsParse s h; simp [parseDate, h]
  · intro nowDay jsParse s h; simp [parseDate, h]
  · intro nowDay jsParse s h; simp [parseDate, h]
  · intro nowDay jsParse s d h1 h2 h3 hp; simp [parseDate, h1, h2, h3, hp]
  · intro nowDay jsParse s h1 h2 h3 hp; simp [parseDate, h1, h2, h3, hp]

theorem c9_parse_date_tokens_witness :
    parseDate 20000 jsNone "Today" = .ok (isoOfDay 20000) ∧
    parseDate 20000 jsNone "YESTERDAY" = .ok (isoOfDay (20000 - 1)) ∧
    parseDate 20000 jsNone "tomorrow" = .ok (isoOfDay (20000 + 1)) ∧
    parseDate 20000 (fun _ => some 19738) "2024-01-15" = .ok (isoOfDay 19738) ∧
    parseDate 20000 jsNone "not-a-date" = .error (parseDateErr "not-a-date") :=
  ⟨c9_parse_date_tokens.1 20000 jsNone "Today" (by decide),
   c9_parse_date_tokens.2.1 20000 jsNone "YESTERDAY" (by decide),
   c9_parse_date_tokens.2.2.1 20000 jsNone "tomorrow" (by decide),
   c9_parse_date_tokens.2.2.2.1 20000 (fun _ => some 19738) "2024-01-15" 19738
     (by decide) (by decide) (by decide) rfl,
   c9_parse_date_tokens.2.2.2.2 20000 jsNone "not-a-date"
     (by decide) (by decide) (by decide) rfl⟩

theorem startsWithB_containsB : ∀ s pat : List Char,
    startsWithB s pat = true → containsB s pat = true := by
  intro s pat h
  cases s with
  | nil => simpa [containsB] using h
  | cons c cs => simp [containsB, h]

theorem payeeMatchSet_eq_contains (payees : List Payee) (q : String) :
    payeeMatchSet payees q =
      payees.filter (fun p => containsB (lowerStr p.name).data (lowerStr q).data) := by
  apply List.filter_congr
  intro p _
  cases hc : containsB (lowerStr p.name).data (lowerStr q).data with
  | true => simp
  | false =>
    cases hsw : startsWithB (lowerStr p.name).data (lowerStr q).data with
    | true => rw [startsWithB_containsB _ _ hsw] at hc; cases hc
    | false => simp

/-- C8: the payee starts-with check is logically redundant: starts-with
implies contains, the combined match set equals the contains-only match
set, and `findPayee` coincides extensionally with the contains-only
matcher the spec proposes. -/
theorem c8_startswith_redundant :
    (∀ s pat : List Char, startsWithB s pat = true → containsB s pat = true) ∧
    (∀ (payees : List Payee) (q : String),
        payeeMatchSet payees q =
          payees.filter (fun p => containsB (lowerStr p.name).data (lowerStr q).data)) ∧
    (∀ (payees : List Payee) (q : String),
        findPayee payees q = findPayeeContainsOnly payees q) := by
  refine ⟨startsWithB_containsB, payeeMatchSet_eq_contains, ?_⟩
  intro payees q
  simp only [findPayee, findPayeeContainsOnly]
  rw [payeeMatchSet_eq_contains payees q]

theorem c8_startswith_redundant_witness :
    containsB "amazon.com".data "ama".data = true :=
  c8_startswith_redundant.1 "amazon.com".data "ama".data (by decide)

/-- C1: for every entity kind, a candidate whose lower-cased name equals
the lower-cased query makes resolution return an exact-matching
candidate immediately, even when other candidates would match by
substring; in particular the `Amazon.com` query resolves exactly. -/
theorem c1_exact_match_short_circuits :
    (∀ (accounts : List Account) (q : String) (a : Account), a ∈ accounts →
        lowerStr a.name = lowerStr q →
        ∃ b, findAccount accounts q = .entity b ∧ lowerStr b.name = lowerStr q) ∧
    (∀ (categories : List Category) (q : String) (c : Category), c ∈ categories →
        lowerStr c.name = lowerStr q →
        ∃ b, findCategory categories q = .entity b ∧ lowerStr b.name = lowerStr q) ∧
    (∀ (payees : List Payee) (q : String) (p : Payee), p ∈ payees →
        lowerStr p.name = lowerStr q →
        ∃ b, findPayee payees q = .payee b ∧ lowerStr b.name = lowerStr q) ∧
    findPayee c1Payees "Amazon.com" =
      .payee { id := "p1", name := "Amazon.com", transfer_account_id := none } ∧
    findAccount [c1Account] "Amazon.com" = .entity c1Account := by
  refine ⟨?_, ?_, ?_, by decide, by decide⟩
  · intro accounts q a ha he
    obtain ⟨b, hf, hp⟩ :=
      find_exists (fun x => lowerStr x.name == lowerStr q) accounts a ha (by simp [he])
    exact ⟨b, by simp [findAccount, hf], by simpa using hp⟩
  · intro categories q c hc he
    obtain ⟨b, hf, hp⟩ :=
      find_exists (fun x => lowerStr x.name == lowerStr q) categories c hc (by simp [he])
    exact ⟨b, by simp [findCategory, hf], by simpa using hp⟩
  · intro payees q p hp he
    obtain ⟨b, hf, hb⟩ :=
      find_exists (fun x => lowerStr x.name == lowerStr q) payees p hp (by simp [he])
    exact ⟨b, by simp [findPayee, hf], by simpa using hb⟩

theorem c1_exact_match_short_circuits_witness :
    (∃ b, findAccount [c1Account] "AMAZON.COM" = .entity b ∧
        lowerStr b.name = lowerStr "AMAZON.COM") ∧
    (∃ b, findCategory [c1Category] "groceries" = .entity b ∧
        lowerStr b.name = lowerStr "groceries") ∧
    (∃ b, findPayee c1Payees "amazon.COM" = .payee b ∧
        lowerStr b.name = lowerStr "amazon.COM") :=
  ⟨c1_exact_match_short_circuits.1 [c1Account] "AMAZON.COM" c1Account
      (by decide) (by decide),
   c1_exact_match_short_circuits.2.1 [c1Category] "groceries" c1Category
      (by decide) (by decide),
   c1_exact_match_short_circuits.2.2.1 c1Payees "amazon.COM"
      { id := "p1", name := "Amazon.com", transfer_account_id := none }
      (by decide) (by decide)⟩

/-- C2: with no exact match, a unique substring match resolves to that
candidate for every entity kind; several substring matches yield the
disambiguation result, carrying the full candidate list for accounts and
categories but at most five candidates for payees, with a message
listing the candidate names; the `amazon` query over the three Amazon
payees lists all three. -/
theorem c2_substring_disambiguation :
    (∀ (accounts : List Account) (q : String) (a : Account),
        (∀ x ∈ accounts, lowerStr x.name ≠ lowerStr q) →
        accounts.filter (fun x => containsB (lowerStr x.name).data (lowerStr q).data) = [a] →
        findAccount accounts q = .entity a) ∧
    (∀ (accounts : List Account) (q : String) (x y : Account) (ys : List Account),
        (∀ z ∈ accounts, lowerStr z.name ≠ lowerStr q) →
        accounts.filter (fun z => containsB (lowerStr z.name).data (lowerStr q).data) =
          x :: y :: ys →
        findAccount accounts q =
          .errorRes (x :: y :: ys) (multiAccountMsg q (x :: y :: ys))) ∧
    (∀ (categories : List Category) (q : String) (c : Category),
        (∀ z ∈ categories, lowerStr z.name ≠ lowerStr q) →
        categories.filter (fun z => containsB (lowerStr z.name).data (lowerStr q).data) = [c] →
        findCategory categories q = .entity c) ∧
    (∀ (categories : List Category) (q : String) (x y : Category) (ys : List Category),
        (∀ z ∈ categories, lowerStr z.name ≠ lowerStr q) →
        categories.filter (fun z => containsB (lowerStr z.name).data (lowerStr q).data) =
          x :: y :: ys →
        findCategory categories q =
          .errorRes (x :: y :: ys) (multiCategoryMsg q (x :: y :: ys))) ∧
    (∀ (payees : List Payee) (q : String) (p : Payee),
        (∀ z ∈ payees, lowerStr z.name ≠ lowerStr q) →
        payeeMatchSet payees q = [p] →
        findPayee payees q = .payee p) ∧
    (∀ (payees : List Payee) (q : String) (x y : Payee) (ys : List Payee),
        (∀ z ∈ payees, lowerStr z.name ≠ lowerStr q) →
        payeeMatchSet payees q = x :: y :: ys →
        findPayee payees q =
          .info ((x :: y :: ys).take 5) false (some (multiPayeeMsg q (x :: y :: ys)))) ∧
    findPayee c2Payees "amazon" =
      .info c2Payees false
        (some "Multiple payees match \"amazon\": Amazon.com, Amazon Prime, AmazonFresh") := by
  refine ⟨?_, ?_, ?_, ?_, ?_, ?_, by decide⟩
  · intro accounts q a hne hfil
    have hfn : accounts.find? (fun x => lowerStr x.name == lowerStr q) = none :=
      List.find?_eq_none.mpr (fun x hx => by simp [hne x hx])
    simp [findAccount, hfn, hfil]
  · intro accounts q x y ys hne hfil
    have hfn : accounts.find? (fun z => lowerStr z.name == lowerStr q) = none :=
      List.find?_eq_none.mpr (fun z hz => by simp [hne z hz])
    simp [findAccount, hfn, hfil]
  · intro categories q c hne hfil
    have hfn : categories.find? (fun z => lowerStr z.name == lowerStr q) = none :=
      List.find?_eq_none.mpr (fun z hz => by simp [hne z hz])
    simp [findCategory, hfn, hfil]
  · intro categories q x y ys hne hfil
    have hfn : categories.find? (fun z => lowerStr z.name == lowerStr q) = none :=
      List.find?_eq_none.mpr (fun z hz => by simp [hne z hz])
    simp [findCategory, hfn, hfil]
  · intro payees q p hne hfil
    have hfn : payees.find? (fun z => lowerStr z.name == lowerStr q) = none :=
      List.find?_eq_none.mpr (fun z hz => by simp [hne z hz])
    simp [findPayee, hfn, hfil]
  · intro payees q x y ys hne hfil
    have hfn : payees.find? (fun z => lowerStr z.name == lowerStr q) = none :=
      List.find?_eq_none.mpr (fun z hz => by simp [hne z hz])
    simp [findPayee, hfn, hfil]

theorem c2_substring_disambiguation_witness :
    findAccount [c1Account] "mazon" = .entity c1Account ∧
    findAccount [c1Account, c2Account2] "amazon" =
      .errorRes [c1Account, c2Account2]
        (multiAccountMsg "amazon" [c1Account, c2Account2]) ∧
    findCategory [c1Category] "grocer" = .entity c1Category ∧
    findCategory [c1Category, c2Category2] "gro" =
      .errorRes [c1Category, c2Category2]
        (multiCategoryMsg "gro" [c1Category, c2Category2]) ∧
    findPayee c2Payees "fresh" =
      .payee { id := "p3", name := "AmazonFresh", transfer_account_id := none } ∧
    findPayee c2Payees "amazon" =
      .info (([ { id := "p1", name := "Amazon.com", transfer_account_id := none },
                 { id := "p2", name := "Amazon Prime", transfer_account_id := none },
                 { id := "p3", name := "AmazonFresh", transfer_account_id := none } ] :
          List Payee).take 5) false
        (some (multiPayeeMsg "amazon" c2Payees)) :=
  ⟨c2_substring_disambiguation.1 [c1Account] "mazon" c1Account (by decide) (by decide),
   c2_substring_disambiguation.2.1 [c1Account, c2Account2] "amazon" c1Account c2Account2 []
     (by decide) (by decide),
   c2_substring_disambiguation.2.2.1 [c1Category] "grocer" c1Category
     (by decide) (by decide),
   c2_substring_disambiguation.2.2.2.1 [c1Category, c2Category2] "gro" c1Category c2Category2 []
     (by decide) (by decide),
   c2_substring_disambiguation.2.2.2.2.1 c2Payees "fresh"
     { id := "p3", name := "AmazonFresh", transfer_account_id := none }
     (by decide) (by decide),
   c2_substring_disambiguation.2.2.2.2.2.1 c2Payees "amazon"
     { id := "p1", name := "Amazon.com", transfer_account_id := none }
     { id := "p2", name := "Amazon Prime", transfer_account_id := none }
     [{ id := "p3", name := "AmazonFresh", transfer_account_id := none }]
     (by decide) (by decide)⟩

theorem strLtB_asymm : ∀ a b : List Char, strLtB a b = true → ¬ (strLtB b a = true) := by
  intro a
  induction a with
  | nil =>
    intro b h
    cases b with
    | nil => simp [strLtB] at h
    | cons y ys => simp [strLtB]
  | cons x xs ih =>
    intro b h
    cases b with
    | nil => simp [strLtB] at h
    | cons y ys =>
      simp only [strLtB, Bool.or_eq_true, Bool.and_eq_true, Nat.blt_eq, Nat.beq_eq] at h ⊢
      intro hc
      rcases h with h | ⟨he, hrec⟩ <;> rcases hc with hc | ⟨hce, hcrec⟩
      · omega
      · omega
      · omega
      · exact ih ys hrec hcrec

theorem strLtB_le_trans : ∀ a b c : List Char,
    strLtB c a = true → strLtB b a = true ∨ strLtB c b = true := by
  intro a
  induction a with
  | nil =>
    intro b c h
    cases c with
    | nil => simp [strLtB] at h
    | cons z zs => simp [strLtB] at h
  | cons x xs ih =>
    intro b c h
    cases c with
    | nil =>
      cases b with
      | nil => left; simp [strLtB]
      | cons y ys => right; simp [strLtB]
    | cons z zs =>
      cases b with
      | nil => left; simp [strLtB]
      | cons y ys =>
        simp only [strLtB, Bool.or_eq_true, Bool.and_eq_true, Nat.blt_eq, Nat.beq_eq] at h ⊢
        rcases h with h | ⟨he, hrec⟩
        · rcases Nat.lt_or_ge y.toNat x.toNat with hy | hy
          · exact Or.inl (Or.inl hy)
          · exact Or.inr (Or.inl (by omega))
        · rcases Nat.lt_or_ge y.toNat x.toNat with hy | hy
          · exact Or.inl (Or.inl hy)
          · rcases Nat.eq_or_lt_of_le hy with hy | hy
            · rcases ih ys zs hrec with hr | hr
              · exact Or.inl (Or.inr ⟨hy.symm, hr⟩)
              · exact Or.inr (Or.inr ⟨by omega, hr⟩)
            · exact Or.inr (Or.inl (by omega))

theorem strLeB_total (a b : String) : strLeB a b = true ∨ strLeB b a = true := by
  by_cases h : strLtB b.data a.data = true
  · right
    have h2 : strLtB a.data b.data = false :=
      Bool.eq_false_iff.mpr (strLtB_asymm _ _ h)
    simp [strLeB, h2]
  · left
    simp [strLeB, Bool.eq_false_iff.mpr h]

theorem strLeB_trans {a b c : String} (h1 : strLeB a b = true)
    (h2 : strLeB b c = true) : strLeB a c = true := by
  simp only [strLeB, Bool.not_eq_true'] at h1 h2 ⊢
  by_contra hc
  rw [Bool.not_eq_false] at hc
  rcases strLtB_le_trans a.data b.data c.data hc with h | h
  · rw [h1] at h; cases h
  · rw [h2] at h; cases h

theorem insertDesc_perm (x : Transaction) (l : List Transaction) :
    List.Perm (insertDesc x l) (x :: l) := by
  induction l with
  | nil => exact List.Perm.refl _
  | cons y ys ih =>
    rw [insertDesc]
    by_cases h : strLeB y.date x.date = true
    · rw [if_pos h]
    · rw [if_neg h]
      exact List.Perm.trans (List.Perm.cons y ih) (List.Perm.swap x y ys)

theorem mem_insertDesc {z x : Transaction} {l : List Transaction} :
    z ∈ insertDesc x l ↔ z = x ∨ z ∈ l := by
  rw [(insertDesc_perm x l).mem_iff, List.mem_cons]

theorem pairwise_insertDesc {x : Transaction} {l : List Transaction}
    (h : l.Pairwise dateGe) : (insertDesc x l).Pairwise dateGe := by
  induction l with
  | nil => simp [insertDesc, dateGe]
  | cons y ys ih =>
    rcases List.pairwise_cons.mp h with ⟨hy, hys⟩
    rw [insertDesc]
    by_cases hc : strLeB y.date x.date = true
    · rw [if_pos hc]
      refine List.pairwise_cons.mpr ⟨?_, h⟩
      intro z hz
      rcases List.mem_cons.mp hz with rfl | hz
      · exact hc
      · exact strLeB_trans (hy z hz) hc
    · rw [if_neg hc]
      refine List.pairwise_cons.mpr ⟨?_, ih hys⟩
      intro z hz
      rcases mem_insertDesc.mp hz with rfl | hz
      · rcases strLeB_total y.date z.date with hh | hh
        · exact absurd hh hc
        · exact hh
      · exact hy z hz

theorem sortByDateDesc_perm (l : List Transaction) :
    List.Perm (sortByDateDesc l) l := by
  induction l with
  | nil => exact List.Perm.refl _
  | cons x xs ih =>
    rw [sortByDateDesc]
    exact List.Perm.trans (insertDesc_perm x (sortByDateDesc xs)) (List.Perm.cons x ih)

theorem pairwise_sortByDateDesc (l : List Transaction) :
    (sortByDateDesc l).Pairwise dateGe := by
  induction l with
  | nil => simp [sortByDateDesc]
  | cons x xs ih => exact pairwise_insertDesc ih

theorem windowLoop_some_sorted (env : Env) (nowDay : ℤ) (limit : ℕ) :
    ∀ (ds : List ℤ) (res : List Transaction) (tr : List RemoteCall),
      windowLoop env nowDay limit ds = (some res, tr) →
      ∃ l, res = sortByDateDesc l := by
  intro ds
  induction ds with
  | nil => intro res tr h; simp [windowLoop] at h
  | cons d rest ih =>
    intro res tr h
    rw [windowLoop] at h
    by_cases hc : limit ≤ (serverTransactions env (some (isoOfDay (nowDay - d)))).length
    · rw [if_pos hc] at h
      simp only [Prod.mk.injEq, Option.some.injEq] at h
      exact ⟨_, h.1.symm⟩
    · rw [if_neg hc] at h
      simp only [Prod.mk.injEq] at h
      exact ih res _ (by rw [← h.1])

theorem clientGetTransactions_sorted (env : Env) (nowDay : ℤ)
    (sinceDate : Option String) (limit : ℕ) :
    ∃ l, (clientGetTransactions env nowDay sinceDate limit).1 = sortByDateDesc l := by
  cases sinceDate with
  | some d => exact ⟨_, rfl⟩
  | none =>
    rw [clientGetTransactions]
    cases h : windowLoop env nowDay limit [30, 90, 180, 365] with
    | mk o tr =>
      cases o with
      | some res =>
        obtain ⟨l, hl⟩ := windowLoop_some_sorted env nowDay limit _ res tr h
        exact ⟨l, hl⟩
      | none => exact ⟨_, rfl⟩

/-- C6: with no since-date the listing tries the 30/90/180/365-day
windows, stops at the first whose count reaches the limit (returning
that window's response), falls back to an unbounded fetch when none
does, and the handler's final result set is always sorted descending by
date and truncated to the limit; in the concrete scenario the 30-day
window yields 5, the 90-day window 25, and the result is the 20 most
recent of the 90-day window. -/
theorem c6_expanding_window :
    (∀ (env : Env) (nowDay : ℤ) (limit : ℕ),
        (serverTransactions env (some (isoOfDay (nowDay - 30)))).length < limit →
        limit ≤ (serverTransactions env (some (isoOfDay (nowDay - 90)))).length →
        clientGetTransactions env nowDay none limit =
          (sortByDateDesc (serverTransactions env (some (isoOfDay (nowDay - 90)))),
           [RemoteCall.fetchTransactions (some (isoOfDay (nowDay - 30))),
            RemoteCall.fetchTransactions (some (isoOfDay (nowDay - 90)))])) ∧
    (∀ (env : Env) (nowDay : ℤ) (limit : ℕ),
        (∀ d ∈ ([30, 90, 180, 365] : List ℤ),
            (serverTransactions env (some (isoOfDay (nowDay - d)))).length < limit) →
        (clientGetTransactions env nowDay none limit).1 =
          sortByDateDesc (serverTransactions env none)) ∧
    (∀ (env : Env) (nowDay : ℤ) (limit : ℕ),
        ((clientGetTransactions env nowDay none limit).1).Pairwise dateGe) ∧
    (∀ (env : Env) (nowDay : ℤ) (limit : ℕ),
        (getTransactionsLimited env nowDay limit).Pairwise dateGe) ∧
    (∀ (env : Env) (nowDay : ℤ) (limit : ℕ),
        (getTransactionsLimited env nowDay limit).length ≤ limit) ∧
    (serverTransactions c6Env (some (isoOfDay (c6Now - 30)))).length = 5 ∧
    (serverTransactions c6Env (some (isoOfDay (c6Now - 90)))).length = 25 ∧
    getTransactionsLimited c6Env c6Now 20 =
      (sortByDateDesc (serverTransactions c6Env (some (isoOfDay (c6Now - 90))))).take 20 ∧
    (getTransactionsLimited c6Env c6Now 20).length = 20 := by
  refine ⟨?_, ?_, ?_, ?_, ?_, by decide, by decide, by decide, by decide⟩
  · intro env nowDay limit h30 h90
    have hw : windowLoop env nowDay limit [30, 90, 180, 365] =
        (some (sortByDateDesc (serverTransactions env (some (isoOfDay (nowDay - 90))))),
         [RemoteCall.fetchTransactions (some (isoOfDay (nowDay - 30))),
          RemoteCall.fetchTransactions (some (isoOfDay (nowDay - 90)))]) := by
      rw [windowLoop, if_neg (Nat.not_le.mpr h30), windowLoop, if_pos h90]
    simp [clientGetTransactions, hw]
  · intro env nowDay limit hall
    have h30 := hall 30 (by simp)
    have h90 := hall 90 (by simp)
    have h180 := hall 180 (by simp)
    have h365 := hall 365 (by simp)
    have hw : windowLoop env nowDay limit [30, 90, 180, 365] =
        (none,
         [RemoteCall.fetchTransactions (some (isoOfDay (nowDay - 30))),
          RemoteCall.fetchTransactions (some (isoOfDay (nowDay - 90))),
          RemoteCall.fetchTransactions (some (isoOfDay (nowDay - 180))),
          RemoteCall.fetchTransactions (some (isoOfDay (nowDay - 365)))]) := by
      rw [windowLoop, if_neg (Nat.not_le.mpr h30), windowLoop, if_neg (Nat.not_le.mpr h90),
        windowLoop, if_neg (Nat.not_le.mpr h180), windowLoop, if_neg (Nat.not_le.mpr h365),
        windowLoop]
    simp [clientGetTransactions, hw]
  · intro env nowDay limit
    obtain ⟨l, hl⟩ := clientGetTransactions_sorted env nowDay none limit
    rw [hl]
    exact pairwise_sortByDateDesc l
  · intro env nowDay limit
    obtain ⟨l, hl⟩ := clientGetTransactions_sorted env nowDay none limit
    rw [getTransactionsLimited, hl]
    exact (pairwise_sortByDateDesc l).sublist (List.take_sublist _ _)
  · intro env nowDay limit
    rw [getTransactionsLimited]
    simp [List.length_take]

theorem c6_expanding_window_witness :
    clientGetTransactions c6Env c6Now none 20 =
      (sortByDateDesc (serverTransactions c6Env (some (isoOfDay (c6Now - 90)))),
       [RemoteCall.fetchTransactions (some (isoOfDay (c6Now - 30))),
        RemoteCall.fetchTransactions (some (isoOfDay (c6Now - 90)))]) ∧
    (clientGetTransactions c3Env c6Now none 20).1 =
      sortByDateDesc (serverTransactions c3Env none) :=
  ⟨c6_expanding_window.1 c6Env c6Now 20 (by decide) (by decide),
   c6_expanding_window.2.1 c3Env c6Now 20 (by decide)⟩

theorem updateCalls_updTrace (l : List Transaction) (tail : List RemoteCall) :
    updateCalls (l.map (fun t => RemoteCall.updateTx t.id reconcileUpd) ++ tail) =
      l.map (fun t => (t.id, reconcileUpd)) ++ updateCalls tail := by
  induction l with
  | nil => rfl
  | cons t ts ih =>
    simp only [List.map_cons, List.cons_append, updateCalls, List.filterMap_cons] at ih ⊢
    rw [ih]

theorem createCalls_updTrace (l : List Transaction) (tail : List RemoteCall) :
    createCalls (l.map (fun t => RemoteCall.updateTx t.id reconcileUpd) ++ tail) =
      createCalls tail := by
  induction l with
  | nil => rfl
  | cons t ts ih =>
    simp only [List.map_cons, List.cons_append, createCalls, List.filterMap_cons] at ih ⊢
    rw [ih]

theorem updateCalls_fetch2 (s : Option String) (x : List RemoteCall) :
    updateCalls (RemoteCall.fetchAccounts :: RemoteCall.fetchTransactions s :: x) =
      updateCalls x := by
  simp only [updateCalls, List.filterMap_cons]

theorem createCalls_fetch2 (s : Option String) (x : List RemoteCall) :
    createCalls (RemoteCall.fetchAccounts :: RemoteCall.fetchTransactions s :: x) =
      createCalls x := by
  simp only [createCalls, List.filterMap_cons]

theorem updateCalls_updMap (l : List Transaction) :
    updateCalls (l.map (fun t => RemoteCall.updateTx t.id reconcileUpd)) =
      l.map (fun t => (t.id, reconcileUpd)) := by
  have h := updateCalls_updTrace l []
  simp only [updateCalls, List.filterMap_nil, List.append_nil] at h ⊢
  exact h

theorem createCalls_updMap (l : List Transaction) :
    createCalls (l.map (fun t => RemoteCall.updateTx t.id reconcileUpd)) = [] := by
  have h := createCalls_updTrace l []
  simp only [createCalls, List.filterMap_nil, List.append_nil] at h ⊢
  exact h

theorem usd150 : usdToMilliunits 150 = 150000 := by
  norm_num [usdToMilliunits, jsRound]

theorem usd160 : usdToMilliunits 160 = 160000 := by
  norm_num [usdToMilliunits, jsRound]

theorem reconcileTrace_none : ∀ (env : Env) (nowDay : ℤ) (account : String) (a : Account),
    findAccount (visibleAccounts env) account = .entity a →
    reconcileAccountTool env nowDay account none =
      (.ok { text := "Reconciled account: " ++ a.name, isError := false },
       RemoteCall.fetchAccounts ::
         RemoteCall.fetchTransactions (some "1900-01-01") ::
           (clearedOf env).map (fun t => RemoteCall.updateTx t.id reconcileUpd)) := by
  intro env nowDay account a hfind
  simp [reconcileAccountTool, hfind, clientGetTransactions, clearedOf]

theorem reconcileTrace_adjust : ∀ (env : Env) (nowDay : ℤ) (account : String)
    (a : Account) (b : ℚ),
    findAccount (visibleAccounts env) account = .entity a →
    usdToMilliunits b ≠ a.cleared_balance →
    reconcileAccountTool env nowDay account (some b) =
      (.ok { text := "Reconciled account: " ++ a.name, isError := false },
       RemoteCall.fetchAccounts ::
         RemoteCall.fetchTransactions (some "1900-01-01") ::
           ((clearedOf env).map (fun t => RemoteCall.updateTx t.id reconcileUpd) ++
            [RemoteCall.createTx
              { account_id := a.id, date := isoOfDay nowDay,
                amount := usdToMilliunits b - a.cleared_balance,
                payee_name := some "Reconciliation Balance Adjustment",
                payee_id := none, category_id := none, memo := none,
                cleared := some "reconciled", subtransactions := none },
             RemoteCall.fetchPayees])) := by
  intro env nowDay account a b hfind hne
  simp [reconcileAccountTool, hfind, clientGetTransactions, clearedOf,
    clientCreateTransaction, if_pos hne]

theorem reconcileTrace_equal : ∀ (env : Env) (nowDay : ℤ) (account : String)
    (a : Account) (b : ℚ),
    findAccount (visibleAccounts env) account = .entity a →
    usdToMilliunits b = a.cleared_balance →
    reconcileAccountTool env nowDay account (some b) =
      (.ok { text := "Reconciled account: " ++ a.name, isError := false },
       RemoteCall.fetchAccounts ::
         RemoteCall.fetchTransactions (some "1900-01-01") ::
           (clearedOf env).map (fun t => RemoteCall.updateTx t.id reconcileUpd)) := by
  intro env nowDay account a b hfind he
  simp [reconcileAccountTool, hfind, clientGetTransactions, clearedOf, he]

/-- C7: `reconcile_account` updates exactly the currently-cleared
transactions to reconciled, one sequential update per transaction in the
order the (descending-sorted) list call returned them; it then creates
exactly one reconciled adjustment transaction, dated today, with payee
name "Reconciliation Balance Adjustment" and amount target minus cleared
balance, precisely when a target balance is supplied whose milliunit
conversion differs from the account's cleared balance.  The concrete
scenario has cleared balance 150000: target 150.00 creates no
adjustment, target 160.00 creates a +10000 adjustment. -/
theorem c7_reconcile_account :
    (∀ (env : Env) (nowDay : ℤ) (account : String) (a : Account),
        findAccount (visibleAccounts env) account = .entity a →
        reconcileAccountTool env nowDay account none =
          (.ok { text := "Reconciled account: " ++ a.name, isError := false },
           RemoteCall.fetchAccounts ::
             RemoteCall.fetchTransactions (some "1900-01-01") ::
               (clearedOf env).map (fun t => RemoteCall.updateTx t.id reconcileUpd))) ∧
    (∀ (env : Env) (nowDay : ℤ) (account : String) (a : Account) (balance : Option ℚ),
        findAccount (visibleAccounts env) account = .entity a →
        updateCalls (reconcileAccountTool env nowDay account balance).2 =
          (clearedOf env).map (fun t => (t.id, reconcileUpd))) ∧
    (∀ (env : Env) (nowDay : ℤ) (account : String) (a : Account) (balance : Option ℚ),
        findAccount (visibleAccounts env) account = .entity a →
        ∀ u ∈ updateCalls (reconcileAccountTool env nowDay account balance).2,
          ∃ t ∈ clearedOf env, t.cleared = "cleared" ∧ u = (t.id, reconcileUpd)) ∧
    (∀ (env : Env) (nowDay : ℤ) (account : String) (a : Account) (b : ℚ),
        findAccount (visibleAccounts env) account = .entity a →
        usdToMilliunits b = a.cleared_balance →
        createCalls (reconcileAccountTool env nowDay account (some b)).2 = []) ∧
    (∀ (env : Env) (nowDay : ℤ) (account : String) (a : Account),
        findAccount (visibleAccounts env) account = .entity a →
        createCalls (reconcileAccountTool env nowDay account none).2 = []) ∧
    (∀ (env : Env) (nowDay : ℤ) (account : String) (a : Account) (b : ℚ),
        findAccount (visibleAccounts env) account = .entity a →
        usdToMilliunits b ≠ a.cleared_balance →
        reconcileAccountTool env nowDay account (some b) =
          (.ok { text := "Reconciled account: " ++ a.name, isError := false },
           RemoteCall.fetchAccounts ::
             RemoteCall.fetchTransactions (some "1900-01-01") ::
               ((clearedOf env).map (fun t => RemoteCall.updateTx t.id reconcileUpd) ++
                [RemoteCall.createTx
                  { account_id := a.id, date := isoOfDay nowDay,
                    amount := usdToMilliunits b - a.cleared_balance,
                    payee_name := some "Reconciliation Balance Adjustment",
                    payee_id := none, category_id := none, memo := none,
                    cleared := some "reconciled", subtransactions := none },
                 RemoteCall.fetchPayees]))) ∧
    createCalls (reconcileAccountTool c7Env 20000 "Checking" (some 150)).2 = [] ∧
    createCalls (reconcileAccountTool c7Env 20000 "Checking" (some 160)).2 =
      [{ account_id := "acc1", date := isoOfDay 20000, amount := 10000,
         payee_name := some "Reconciliation Balance Adjustment",
         payee_id := none, category_id := none, memo := none,
         cleared := some "reconciled", subtransactions := none }] := by
  have hnone := reconcileTrace_none
  have hadj := reconcileTrace_adjust
  have heq := reconcileTrace_equal
  have hupd : ∀ (env : Env) (nowDay : ℤ) (account : String) (a : Account)
      (balance : Option ℚ),
      findAccount (visibleAccounts env) account = .entity a →
      updateCalls (reconcileAccountTool env nowDay account balance).2 =
        (clearedOf env).map (fun t => (t.id, reconcileUpd)) := by
    intro env nowDay account a balance hfind
    cases balance with
    | none =>
      rw [hnone env nowDay account a hfind, updateCalls_fetch2, updateCalls_updMap]
    | some b =>
      by_cases he : usdToMilliunits b = a.cleared_balance
      · rw [heq env nowDay account a b hfind he, updateCalls_fetch2, updateCalls_updMap]
      · rw [hadj env nowDay account a b hfind he, updateCalls_fetch2, updateCalls_updTrace]
        simp [updateCalls, List.filterMap_cons]
  have hc150 : createCalls (reconcileAccountTool c7Env 20000 "Checking" (some 150)).2 = [] := by
    have hfind : findAccount (visibleAccounts c7Env) "Checking" = .entity exAccount := by
      decide
    rw [heq c7Env 20000 "Checking" exAccount 150 hfind (by rw [usd150]; rfl),
      createCalls_fetch2, createCalls_updMap]
  have hc160 : createCalls (reconcileAccountTool c7Env 20000 "Checking" (some 160)).2 =
      [{ account_id := "acc1", date := isoOfDay 20000, amount := 10000,
         payee_name := some "Reconciliation Balance Adjustment",
         payee_id := none, category_id := none, memo := none,
         cleared := some "reconciled", subtransactions := none }] := by
    have hfind : findAccount (visibleAccounts c7Env) "Checking" = .entity exAccount := by
      decide
    rw [hadj c7Env 20000 "Checking" exAccount 160 hfind (by rw [usd160]; decide),
      createCalls_fetch2, createCalls_updTrace]
    simp [createCalls, List.filterMap_cons, usd160, exAccount]
  refine ⟨hnone, hupd, ?_, ?_, ?_, hadj, hc150, hc160⟩
  · intro env nowDay account a balance hfind u hu
    rw [hupd env nowDay account a balance hfind] at hu
    obtain ⟨t, ht, hut⟩ := List.mem_map.mp hu
    refine ⟨t, ht, ?_, hut.symm⟩
    have := List.of_mem_filter ht
    simpa using this
  · intro env nowDay account a b hfind he
    rw [heq env nowDay account a b hfind he, createCalls_fetch2, createCalls_updMap]
  · intro env nowDay account a hfind
    rw [hnone env nowDay account a hfind, createCalls_fetch2, createCalls_updMap]

theorem c7_reconcile_account_witness :
    reconcileAccountTool c7Env 20000 "Checking" none =
      (.ok { text := "Reconciled account: " ++ exAccount.name, isError := false },
       RemoteCall.fetchAccounts ::
         RemoteCall.fetchTransactions (some "1900-01-01") ::
           (clearedOf c7Env).map (fun t => RemoteCall.updateTx t.id reconcileUpd)) ∧
    createCalls (reconcileAccountTool c7Env 20000 "Checking" (some 150)).2 = [] :=
  ⟨c7_reconcile_account.1 c7Env 20000 "Checking" exAccount (by decide),
   c7_reconcile_account.2.2.2.1 c7Env 20000 "Checking" exAccount 150 (by decide)
     (by rw [usd150]; rfl)⟩

theorem createCalls_consFA (x : List RemoteCall) :
    createCalls (RemoteCall.fetchAccounts :: x) = createCalls x := by
  simp only [createCalls, List.filterMap_cons]

theorem createCalls_append (a b : List RemoteCall) :
    createCalls (a ++ b) = createCalls a ++ createCalls b := by
  simp [createCalls, List.filterMap_append]

theorem createCalls_clientCreate (tx : NewTransaction) :
    createCalls (clientCreateTransaction tx) = [tx] := by
  rw [clientCreateTransaction]
  by_cases h : tx.payee_name.isSome && tx.payee_id.isNone
  · rw [if_pos h]; rfl
  · rw [if_neg h]; rfl

theorem createCalls_catStep (env : Env) (c : Option String) :
    createCalls (resolveCategoryStep env c).2 = [] := by
  rcases ho : optStr c with _ | q
  · simp [resolveCategoryStep, ho, createCalls]
  · rcases hf : findCategory (visibleCategories env) q with a | ⟨ms, e⟩ <;>
      simp [resolveCategoryStep, ho, hf, createCalls, List.filterMap_cons]

theorem subCatStep_noCreate (env : Env) (c : Option String) :
    createCalls (subCatStep env c).2 = [] := by
  rcases ho : optStr c with _ | q
  · simp [subCatStep, ho, createCalls]
  · rcases hf : findCategory (visibleCategories env) q with a | ⟨ms, e⟩ <;>
      simp [subCatStep, ho, hf, createCalls, List.filterMap_cons]

theorem resolveSubList_noCreate (env : Env) : ∀ l : List SubArg,
    createCalls (resolveSubList env l).2 = [] := by
  intro l
  induction l with
  | nil => rfl
  | cons s rest ih =>
    rw [resolveSubList]
    rcases hc : subCatStep env s.category with ⟨cr, tr⟩
    have htr : createCalls tr = [] := by
      have h := subCatStep_noCreate env s.category
      rw [hc] at h
      exact h
    rcases cr with r | catId
    · simp only [hc]
      exact htr
    · simp only [hc]
      rcases hp : subPayStep env.payees s.payee with r | ⟨pid, pname⟩
      · simp only [hp]
        exact htr
      · simp only [hp]
        rcases hr : resolveSubList env rest with ⟨rr, tr2⟩
        have htr2 : createCalls tr2 = [] := by
          have h := ih
          rw [hr] at h
          exact h
        rcases rr with r | rs
        · simp only [hr]
          rw [createCalls_append, htr, htr2]
          rfl
        · simp only [hr]
          rw [createCalls_append, htr, htr2]
          rfl

theorem subsStep_noCreate (env : Env) (amount : ℚ) (subs : Option (List SubArg)) :
    createCalls (subsStep env amount subs).2 = [] := by
  rcases subs with _ | l
  · rfl
  rcases l with _ | ⟨s, ss⟩
  · rfl
  simp only [subsStep]
  by_cases hq : (1/200 : ℚ) <
      |(s :: ss).foldl (fun acc x => acc + x.amount) 0 - amount|
  · rw [if_pos hq]
    rfl
  · rw [if_neg hq]
    rcases hr : resolveSubList env (s :: ss) with ⟨rr, tr⟩
    have htr : createCalls tr = [] := by
      have h := resolveSubList_noCreate env (s :: ss)
      rw [hr] at h
      exact h
    rcases rr with r | rs
    · simp only [hr]
      exact htr
    · simp only [hr]
      exact htr

theorem createTool_newPayee_eval : ∀ (env : Env) (nowDay : ℤ)
    (jsParse : String → Option ℤ) (args : CreateArgs) (a : Account)
    (rest : List Account),
    optStr args.account = none → visibleAccounts env = a :: rest →
    findPayee env.payees args.payee = .info [] true none →
    args.confirm_new_payee = true →
    optStr args.category = none → optStr args.date = none →
    args.subtransactions = none →
    createTransactionTool env nowDay jsParse args =
      (.ok { text := "Transaction created successfully", isError := false },
       [RemoteCall.fetchAccounts,
        RemoteCall.createTx
          { account_id := a.id, date := isoOfDay nowDay,
            amount := usdToMilliunits args.amount, payee_name := some args.payee,
            payee_id := none, category_id := none, memo := args.memo,
            cleared := some "uncleared", subtransactions := none },
        RemoteCall.fetchPayees]) := by
  intro env nowDay jsParse args a rest hacc hvis hfp hconf hcat hdate hsubs
  have ha : resolveAccountStep env args.account = .ok a.id := by
    rw [resolveAccountStep, hacc, hvis]
  have hp : resolvePayeeStep env.payees args.payee args.confirm_new_payee =
      .ok (none, some args.payee) := by
    simp [resolvePayeeStep, hfp, hconf]
  have hc : resolveCategoryStep env args.category = (.ok none, []) := by
    simp [resolveCategoryStep, hcat]
  have hd : dateStep nowDay jsParse args.date = .ok (isoOfDay nowDay) := by
    simp [dateStep, hdate]
  have hs : subsStep env args.amount args.subtransactions = (.ok none, []) := by
    rw [hsubs]
    rfl
  simp only [createTransactionTool, ha, hp, hc, hd, hs]
  simp [clientCreateTransaction]

/-- C10: every transaction `create_transaction` submits to the remote API
is created with cleared state "uncleared", on every path; the only
pre-reconciled create is `reconcile_account`'s adjustment transaction. -/
theorem c10_created_uncleared :
    (∀ (env : Env) (nowDay : ℤ) (jsParse : String → Option ℤ) (args : CreateArgs)
        (t : NewTransaction),
        t ∈ createCalls (createTransactionTool env nowDay jsParse args).2 →
        t.cleared = some "uncleared") ∧
    (∀ (env : Env) (nowDay : ℤ) (account : String) (balance : Option ℚ)
        (t : NewTransaction),
        t ∈ createCalls (reconcileAccountTool env nowDay account balance).2 →
        t.cleared = some "reconciled") := by
  constructor
  · intro env nowDay jsParse args t ht
    rw [createTransactionTool] at ht
    rcases ha : resolveAccountStep env args.account with r | accountId <;>
      simp only [ha] at ht
    · simp [createCalls] at ht
    · rcases hp : resolvePayeeStep env.payees args.payee args.confirm_new_payee with
        r | ⟨payeeId, payeeName⟩ <;> simp only [hp] at ht
      · simp [createCalls] at ht
      · rcases hc : resolveCategoryStep env args.category with ⟨cr, tr2⟩
        have htr2 : createCalls tr2 = [] := by
          have h := createCalls_catStep env args.category
          rw [hc] at h
          exact h
        rcases cr with r | catId <;> simp only [hc] at ht
        · rw [createCalls_consFA, htr2] at ht
          simp at ht
        · rcases hd : dateStep nowDay jsParse args.date with e | txDate <;>
            simp only [hd] at ht
          · rw [createCalls_consFA, htr2] at ht
            simp at ht
          · rcases hs : subsStep env args.amount args.subtransactions with ⟨sr, tr3⟩
            have htr3 : createCalls tr3 = [] := by
              have h := subsStep_noCreate env args.amount args.subtransactions
              rw [hs] at h
              exact h
            rcases sr with r | subsRes <;> simp only [hs] at ht
            · rw [createCalls_consFA, createCalls_append, htr2, htr3] at ht
              simp at ht
            · rw [createCalls_consFA, createCalls_append, createCalls_append, htr2,
                htr3, createCalls_clientCreate] at ht
              simp at ht
              subst ht
              rfl
  · intro env nowDay account balance t ht
    cases hf : findAccount (visibleAccounts env) account with
    | errorRes ms e =>
      rw [reconcileAccountTool] at ht
      simp only [hf] at ht
      simp [createCalls] at ht
    | entity a =>
      cases balance with
      | none =>
        rw [reconcileTrace_none env nowDay account a hf, createCalls_fetch2,
          createCalls_updMap] at ht
        simp at ht
      | some b =>
        by_cases he : usdToMilliunits b = a.cleared_balance
        · rw [reconcileTrace_equal env nowDay account a b hf he, createCalls_fetch2,
            createCalls_updMap] at ht
          simp at ht
        · rw [reconcileTrace_adjust env nowDay account a b hf he, createCalls_fetch2,
            createCalls_updTrace] at ht
          simp only [createCalls, List.filterMap_cons, List.filterMap_nil] at ht
          simp at ht
          subst ht
          rfl

theorem c10_created_uncleared_witness :
    ({ account_id := exAccount.id, date := isoOfDay 20000,
       amount := usdToMilliunits c10Args.amount, payee_name := some c10Args.payee,
       payee_id := none, category_id := none, memo := c10Args.memo,
       cleared := some "uncleared", subtransactions := none } :
        NewTransaction).cleared = some "uncleared" ∧
    ({ account_id := exAccount.id, date := isoOfDay 20000,
       amount := usdToMilliunits 160 - exAccount.cleared_balance,
       payee_name := some "Reconciliation Balance Adjustment",
       payee_id := none, category_id := none, memo := none,
       cleared := some "reconciled", subtransactions := none } :
        NewTransaction).cleared = some "reconciled" :=
  ⟨c10_created_uncleared.1 c3Env 20000 jsNone c10Args _
     (by rw [createTool_newPayee_eval c3Env 20000 jsNone c10Args exAccount [] rfl
           (by decide) (by decide) rfl rfl rfl rfl]
         simp [createCalls, List.filterMap_cons]),
   c10_created_uncleared.2 c7Env 20000 "Checking" (some 160) _
     (by rw [reconcileTrace_adjust c7Env 20000 "Checking" exAccount 160 (by decide)
           (by rw [usd160]; decide), createCalls_fetch2, createCalls_updTrace]
         simp [createCalls, List.filterMap_cons])⟩

theorem resolveAccountStep_isError (env : Env) (account : Option String)
    (r : ToolResult) (h : resolveAccountStep env account = .error r) :
    r.isError = true := by
  rw [resolveAccountStep] at h
  split at h
  · split at h
    · exact Except.noConfusion h
    · injection h with h2
      subst h2
      rfl
  · split at h
    · injection h with h2
      subst h2
      rfl
    · exact Except.noConfusion h

theorem resolvePayeeStep_isError (payees : List Payee) (q : String) (confirm : Bool)
    (r : ToolResult) (h : resolvePayeeStep payees q confirm = .error r) :
    r.isError = true := by
  rw [resolvePayeeStep] at h
  split at h
  · exact Except.noConfusion h
  · split at h
    · injection h with h2
      subst h2
      rfl
    · split at h
      · split at h
        · injection h with h2
          subst h2
          rfl
        · exact Except.noConfusion h
      · exact Except.noConfusion h

theorem resolveCategoryStep_isError (env : Env) (c : Option String)
    (r : ToolResult) (h : (resolveCategoryStep env c).1 = .error r) :
    r.isError = true := by
  rw [resolveCategoryStep] at h
  split at h
  · exact Except.noConfusion h
  · split at h
    · exact Except.noConfusion h
    · have h2 := Except.error.inj h
      rw [← h2]

theorem subCatStep_isError (env : Env) (c : Option String)
    (r : ToolResult) (h : (subCatStep env c).1 = .error r) :
    r.isError = true := by
  rw [subCatStep] at h
  split at h
  · exact Except.noConfusion h
  · split at h
    · exact Except.noConfusion h
    · have h2 := Except.error.inj h
      rw [← h2]

theorem subPayStep_isError (payees : List Payee) (p : Option String)
    (r : ToolResult) (h : subPayStep payees p = .error r) :
    r.isError = true := by
  rw [subPayStep] at h
  split at h
  · exact Except.noConfusion h
  · split at h
    · exact Except.noConfusion h
    · split at h
      · injection h with h2
        subst h2
        rfl
      · exact Except.noConfusion h

theorem resolveSubList_isError (env : Env) : ∀ (l : List SubArg) (r : ToolResult),
    (resolveSubList env l).1 = .error r → r.isError = true := by
  intro l
  induction l with
  | nil =>
    intro r h
    exact Except.noConfusion h
  | cons s rest ih =>
    intro r h
    rw [resolveSubList] at h
    rcases hc : subCatStep env s.category with ⟨cr, tr⟩
    rcases cr with rc | catId <;> simp only [hc] at h
    · have h2 := Except.error.inj h
      rw [← h2]
      exact subCatStep_isError env s.category rc (by rw [hc])
    · rcases hp : subPayStep env.payees s.payee with rp | ⟨pid, pname⟩ <;>
        simp only [hp] at h
      · have h2 := Except.error.inj h
        rw [← h2]
        exact subPayStep_isError env.payees s.payee rp hp
      · rcases hr : resolveSubList env rest with ⟨rr, tr2⟩
        rcases rr with re | rs <;> simp only [hr] at h
        · have h2 := Except.error.inj h
          rw [← h2]
          exact ih re (by rw [hr])
        · exact Except.noConfusion h

theorem subsStep_mismatch (env : Env) (amount : ℚ) (s : SubArg) (ss : List SubArg)
    (h : (1/200 : ℚ) < |(s :: ss).foldl (fun acc x => acc + x.amount) 0 - amount|) :
    subsStep env amount (some (s :: ss)) =
      (Except.error
        { text :=
            subMismatchMsg amount ((s :: ss).foldl (fun acc x => acc + x.amount) 0),
          isError := true },
       []) := by
  simp only [subsStep]
  rw [if_pos h]

theorem subsStep_isError (env : Env) (amount : ℚ) :
    ∀ (subs : Option (List SubArg)) (r : ToolResult),
    (subsStep env amount subs).1 = .error r → r.isError = true := by
  intro subs r h
  rcases subs with _ | l
  · exact Except.noConfusion h
  rcases l with _ | ⟨s, ss⟩
  · exact Except.noConfusion h
  simp only [subsStep] at h
  by_cases hq : (1/200 : ℚ) <
      |(s :: ss).foldl (fun acc x => acc + x.amount) 0 - amount|
  · rw [if_pos hq] at h
    have h2 := Except.error.inj h
    rw [← h2]
  · rw [if_neg hq] at h
    rcases hr : resolveSubList env (s :: ss) with ⟨rr, tr⟩
    rcases rr with re | rs <;> simp only [hr] at h
    · have h2 := Except.error.inj h
      rw [← h2]
      exact resolveSubList_isError env (s :: ss) re (by rw [hr])
    · exact Except.noConfusion h

/-- C4 (amended): a create call whose subtransaction amounts miss the
parent amount by more than the 0.005 major-unit tolerance never
succeeds, and no remote create request is ever issued for it — the
validation failure precedes the (single) transaction-create POST, though
read-only resolution fetches may already have been issued. -/
theorem c4_sum_validation_amended :
    ∀ (env : Env) (nowDay : ℤ) (jsParse : String → Option ℤ) (args : CreateArgs)
      (l : List SubArg),
      args.subtransactions = some l → l ≠ [] →
      (1/200 : ℚ) < |l.foldl (fun acc x => acc + x.amount) 0 - args.amount| →
      isFailure (createTransactionTool env nowDay jsParse args).1 = true ∧
      createCalls (createTransactionTool env nowDay jsParse args).2 = [] := by
  intro env nowDay jsParse args l hsubs hl hq
  rcases l with _ | ⟨s, ss⟩
  · exact absurd rfl hl
  have hs : subsStep env args.amount args.subtransactions =
      (Except.error
        { text :=
            subMismatchMsg args.amount ((s :: ss).foldl (fun acc x => acc + x.amount) 0),
          isError := true },
       []) := by
    rw [hsubs]
    exact subsStep_mismatch env args.amount s ss hq
  rw [createTransactionTool]
  rcases ha : resolveAccountStep env args.account with r | accountId <;> simp only [ha]
  · exact ⟨resolveAccountStep_isError env args.account r ha, by simp [createCalls]⟩
  · rcases hp : resolvePayeeStep env.payees args.payee args.confirm_new_payee with
      r | ⟨payeeId, payeeName⟩ <;> simp only [hp]
    · exact ⟨resolvePayeeStep_isError env.payees args.payee args.confirm_new_payee r hp,
        by simp [createCalls]⟩
    · rcases hc : resolveCategoryStep env args.category with ⟨cr, tr2⟩
      have htr2 : createCalls tr2 = [] := by
        have h := createCalls_catStep env args.category
        rw [hc] at h
        exact h
      rcases cr with r | catId <;> simp only [hc]
      · refine ⟨resolveCategoryStep_isError env args.category r (by rw [hc]), ?_⟩
        rw [createCalls_consFA, htr2]
      · rcases hd : dateStep nowDay jsParse args.date with e | txDate <;> simp only [hd]
        · exact ⟨rfl, by rw [createCalls_consFA, htr2]⟩
        · simp only [hs]
          refine ⟨rfl, ?_⟩
          rw [createCalls_consFA, createCalls_append, htr2]
          rfl

theorem fixed2_neg95 : fixed2 (-95) = "-95.00" := by
  have h : jsRound ((-95 : ℚ) * 100) = -9500 := by norm_num [jsRound]
  simp only [fixed2, h]
  decide

theorem fixed2_neg100 : fixed2 (-100) = "-100.00" := by
  have h : jsRound ((-100 : ℚ) * 100) = -10000 := by norm_num [jsRound]
  simp only [fixed2, h]
  decide

theorem c4_foldl_sum :
    List.foldl (fun acc x => acc + x.amount) (0 : ℚ) [c4Sub1, c4Sub2] = -100 := by
  norm_num [List.foldl, c4Sub1, c4Sub2]

/-- C4 counterexample: at the concrete mismatched split call the
validation failure is indeed returned, but a remote request (the account
resolution fetch) has already been issued — refuting the claim that no
remote request of any kind is issued for such a call. -/
theorem c4_remote_fetch_counterexample :
    (createTransactionTool c4Env 20000 jsNone c4Args).1 =
      .ok { text := "Subtransaction amounts must sum to the parent amount. Parent: $-95.00, subtransactions sum: $-100.00",
            isError := true } ∧
    RemoteCall.fetchAccounts ∈ (createTransactionTool c4Env 20000 jsNone c4Args).2 := by
  have hq : (1/200 : ℚ) <
      |[c4Sub1, c4Sub2].foldl (fun acc x => acc + x.amount) 0 - c4Args.amount| := by
    rw [c4_foldl_sum]
    norm_num [c4Args]
  have hmsg : subMismatchMsg c4Args.amount
      (List.foldl (fun acc x => acc + x.amount) (0 : ℚ) [c4Sub1, c4Sub2]) =
      "Subtransaction amounts must sum to the parent amount. Parent: $-95.00, subtransactions sum: $-100.00" := by
    rw [c4_foldl_sum]
    rw [show c4Args.amount = (-95 : ℚ) from rfl]
    rw [subMismatchMsg, fixed2_neg95, fixed2_neg100]
    decide
  have hs : subsStep c4Env c4Args.amount c4Args.subtransactions =
      (Except.error
        { text :=
            subMismatchMsg c4Args.amount
              (List.foldl (fun acc x => acc + x.amount) (0 : ℚ) [c4Sub1, c4Sub2]),
          isError := true },
       []) := by
    rw [show c4Args.subtransactions = some [c4Sub1, c4Sub2] from rfl]
    exact subsStep_mismatch c4Env c4Args.amount c4Sub1 [c4Sub2] hq
  have ha : resolveAccountStep c4Env c4Args.account = .ok "acc1" := rfl
  have hp : resolvePayeeStep c4Env.payees c4Args.payee c4Args.confirm_new_payee =
      .ok (some "p1", none) := rfl
  have hc : resolveCategoryStep c4Env c4Args.category = (.ok none, []) := rfl
  have hd : dateStep 20000 jsNone c4Args.date = .ok (isoOfDay 20000) := rfl
  have heval : createTransactionTool c4Env 20000 jsNone c4Args =
      (Except.ok
        { text :=
            subMismatchMsg c4Args.amount
              (List.foldl (fun acc x => acc + x.amount) (0 : ℚ) [c4Sub1, c4Sub2]),
          isError := true },
       [RemoteCall.fetchAccounts]) := by
    simp only [createTransactionTool, ha, hp, hc, hd, hs]
    rfl
  rw [heval, hmsg]
  exact ⟨rfl, by simp⟩

theorem c4_sum_validation_amended_witness :
    isFailure (createTransactionTool c4Env 20000 jsNone c4Args).1 = true ∧
    createCalls (createTransactionTool c4Env 20000 jsNone c4Args).2 = [] :=
  c4_sum_validation_amended c4Env 20000 jsNone c4Args [c4Sub1, c4Sub2] rfl
    (by simp)
    (by rw [c4_foldl_sum]
        norm_num [c4Args])

/-- C3: a payee query with no exact and no substring match resolves to
the NewPayeeCandidate shape (empty candidate list, `isNew`, no error);
a create call whose payee resolves that way is rejected with the
explanatory confirmation message and issues no remote create when the
confirm flag is unset, and with the flag set it proceeds, submitting the
transaction with the payee name rather than an id. -/
theorem c3_new_payee_confirmation :
    (∀ (payees : List Payee) (q : String),
        (∀ p ∈ payees, lowerStr p.name ≠ lowerStr q) →
        (∀ p ∈ payees, containsB (lowerStr p.name).data (lowerStr q).data = false) →
        findPayee payees q = .info [] true none) ∧
    (∀ (env : Env) (nowDay : ℤ) (jsParse : String → Option ℤ) (args : CreateArgs),
        args.confirm_new_payee = false →
        findPayee env.payees args.payee = .info [] true none →
        isFailure (createTransactionTool env nowDay jsParse args).1 = true ∧
        createCalls (createTransactionTool env nowDay jsParse args).2 = []) ∧
    (∀ (env : Env) (nowDay : ℤ) (jsParse : String → Option ℤ) (args : CreateArgs)
        (a : Account) (rest : List Account),
        optStr args.account = none → visibleAccounts env = a :: rest →
        findPayee env.payees args.payee = .info [] true none →
        args.confirm_new_payee = false →
        createTransactionTool env nowDay jsParse args =
          (.ok { text := newPayeeMsg args.payee, isError := true },
           [RemoteCall.fetchAccounts])) ∧
    (∀ (env : Env) (nowDay : ℤ) (jsParse : String → Option ℤ) (args : CreateArgs)
        (a : Account) (rest : List Account),
        optStr args.account = none → visibleAccounts env = a :: rest →
        findPayee env.payees args.payee = .info [] true none →
        args.confirm_new_payee = true →
        optStr args.category = none → optStr args.date = none →
        args.subtransactions = none →
        createTransactionTool env nowDay jsParse args =
          (.ok { text := "Transaction created successfully", isError := false },
           [RemoteCall.fetchAccounts,
            RemoteCall.createTx
              { account_id := a.id, date := isoOfDay nowDay,
                amount := usdToMilliunits args.amount, payee_name := some args.payee,
                payee_id := none, category_id := none, memo := args.memo,
                cleared := some "uncleared", subtransactions := none },
            RemoteCall.fetchPayees])) := by
  refine ⟨?_, ?_, ?_, createTool_newPayee_eval⟩
  · intro payees q hne hnc
    have hfn : payees.find? (fun z => lowerStr z.name == lowerStr q) = none :=
      List.find?_eq_none.mpr (fun z hz => by simp [hne z hz])
    have hms : payeeMatchSet payees q = [] := by
      rw [payeeMatchSet]
      refine List.filter_eq_nil_iff.mpr ?_
      intro p hp
      have hc := hnc p hp
      cases hsw : startsWithB (lowerStr p.name).data (lowerStr q).data with
      | true =>
        rw [startsWithB_containsB _ _ hsw] at hc
        cases hc
      | false => simp [hc, hsw]
    simp [findPayee, hfn, hms]
  · intro env nowDay jsParse args hconf hfp
    rw [createTransactionTool]
    rcases ha : resolveAccountStep env args.account with r | accountId <;> simp only [ha]
    · exact ⟨resolveAccountStep_isError env args.account r ha, by simp [createCalls]⟩
    · have hp : resolvePayeeStep env.payees args.payee args.confirm_new_payee =
          .error { text := newPayeeMsg args.payee, isError := true } := by
        simp [resolvePayeeStep, hfp, hconf]
      simp only [hp]
      exact ⟨rfl, by simp [createCalls]⟩
  · intro env nowDay jsParse args a rest hacc hvis hfp hconf
    have ha : resolveAccountStep env args.account = .ok a.id := by
      rw [resolveAccountStep, hacc, hvis]
    have hp : resolvePayeeStep env.payees args.payee args.confirm_new_payee =
        .error { text := newPayeeMsg args.payee, isError := true } := by
      simp [resolvePayeeStep, hfp, hconf]
    simp only [createTransactionTool, ha, hp]

theorem c3_new_payee_confirmation_witness :
    findPayee c3Env.payees "NewShop" = .info [] true none ∧
    (isFailure (createTransactionTool c3Env 20000 jsNone c3Args).1 = true ∧
     createCalls (createTransactionTool c3Env 20000 jsNone c3Args).2 = []) ∧
    createTransactionTool c3Env 20000 jsNone c3Args =
      (.ok { text := newPayeeMsg "NewShop", isError := true },
       [RemoteCall.fetchAccounts]) ∧
    createTransactionTool c3Env 20000 jsNone c10Args =
      (.ok { text := "Transaction created successfully", isError := false },
       [RemoteCall.fetchAccounts,
        RemoteCall.createTx
          { account_id := exAccount.id, date := isoOfDay 20000,
            amount := usdToMilliunits c10Args.amount,
            payee_name := some c10Args.payee, payee_id := none, category_id := none,
            memo := c10Args.memo, cleared := some "uncleared",
            subtransactions := none },
        RemoteCall.fetchPayees]) :=
  ⟨c3_new_payee_confirmation.1 c3Env.payees "NewShop" (by decide) (by decide),
   c3_new_payee_confirmation.2.1 c3Env 20000 jsNone c3Args rfl (by decide),
   c3_new_payee_confirmation.2.2.1 c3Env 20000 jsNone c3Args exAccount []
     rfl (by decide) (by decide) rfl,
   c3_new_payee_confirmation.2.2.2 c3Env 20000 jsNone c10Args exAccount []
     rfl (by decide) (by decide) rfl rfl rfl rfl⟩

end YnabMcp
